import Mathlib

/-!
Verification development for the kanjidic node-to-record mapping and
micro-format decoding layer.  The definitions below are a shallow embedding
of the Rust sources (kanjidic_parser: moro.rs, grade.rs, character.rs,
reading.rs, meaning.rs; kanjidic_types: oneill.rs, reference.rs, variant.rs).
Helpers that live outside the provided sources (the shared tree accessors,
the nom-based take_uint combinator, and the remaining field decoders) are
modelled from the specification and marked as such in their doc comments.
-/

set_option maxRecDepth 4000

deriving instance DecidableEq for Except

namespace Kanjidic

/-! ## Positional error context and tree nodes -/

/-- Modelled from the spec: a positioned error captures the tag name and a
document-order position of the node where a leaf failure occurred
(section 4.2, PosError in pos_error.rs which is outside src). -/
structure PosError where
  tag : String
  pos : Nat
deriving DecidableEq, Repr

/-- Modelled from the spec: a generic markup tree node exposing tag name,
attributes, optional own text, a document-order position and ordered
children (the input boundary of section 6; roxmltree Node). -/
inductive Node : Type where
  | mk : String → List (String × String) → Option String → Nat → List Node → Node

/-- Tag name of a node. -/
def Node.tag : Node → String
  | .mk t _ _ _ _ => t

/-- Attribute list of a node. -/
def Node.attrs : Node → List (String × String)
  | .mk _ a _ _ _ => a

/-- Own text content of a node, when present. -/
def Node.txt : Node → Option String
  | .mk _ _ x _ _ => x

/-- Document-order position of a node. -/
def Node.pos : Node → Nat
  | .mk _ _ _ p _ => p

/-- Ordered children of a node. -/
def Node.kids : Node → List Node
  | .mk _ _ _ _ k => k

/-- Positioned error for a node, as PosError::from. -/
def posErrOf (n : Node) : PosError :=
  ⟨n.tag, n.pos⟩

/-- Remove every child with the given tag, leaving the node otherwise
unchanged.  Used to state the optional-group claims. -/
def removeChild (n : Node) (tag : String) : Node :=
  .mk n.tag n.attrs n.txt n.pos (n.kids.filter (fun c => c.tag != tag))

/-! ## Shared tree accessors (shared.rs is outside src; modelled from
section 4.1 of the spec) -/

/-- Modelled from the spec: the error type of the shared tree accessors;
missing child / attribute / text are missing-structure errors, and a
numeric-text parse failure is a malformed-scalar error, each positioned. -/
inductive SharedError : Type where
  | missingChild : String → PosError → SharedError
  | missingAttribute : String → PosError → SharedError
  | missingText : PosError → SharedError
  | notUint : PosError → SharedError
deriving DecidableEq, Repr

/-- Modelled from the spec: requiredChild looks up the first child with the
given tag and reports a missing-structure error positioned at the parent
node otherwise. -/
def childE (n : Node) (tag : String) : Except SharedError Node :=
  match n.kids.find? (fun c => c.tag == tag) with
  | some c => .ok c
  | none => .error (.missingChild tag (posErrOf n))

/-- Modelled from the spec: text extraction; absence of text is a
missing-structure error positioned at the node. -/
def textE (n : Node) : Except SharedError String :=
  match n.txt with
  | some s => .ok s
  | none => .error (.missingText (posErrOf n))

/-- Modelled from the spec: attribute lookup by exact name; absence is a
missing-structure error positioned at the node. -/
def attrE (n : Node) (name : String) : Except SharedError String :=
  match n.attrs.lookup name with
  | some v => .ok v
  | none => .error (.missingAttribute name (posErrOf n))

/-- Numeric value of a list of decimal digit characters. -/
def digitsVal (l : List Char) : Nat :=
  l.foldl (fun a c => 10 * a + (c.toNat - 48)) 0

/-- Modelled from the Rust unsigned FromStr used by the sources: an optional
leading plus sign, then one or more decimal digits and nothing else, with
values above the integer width rejected (overflow). -/
def parseUIntStr (maxVal : Nat) (s : String) : Option Nat :=
  let l := s.data
  let l2 := if l.head? = some '+' then l.tail else l
  if l2 ≠ [] ∧ l2.all Char.isDigit then
    let v := digitsVal l2
    if v ≤ maxVal then some v else none
  else none

/-- Modelled from the spec: textAsUint reads the text of a node and parses
it as a bounded unsigned integer; a malformed numeral is a positioned
malformed-scalar error. -/
def textUintE (maxVal : Nat) (n : Node) : Except SharedError Nat :=
  match textE n with
  | .error e => .error e
  | .ok s =>
    match parseUIntStr maxVal s with
    | some v => .ok v
    | none => .error (.notUint (posErrOf n))

/-- Modelled from the spec: attrAsUint; a missing attribute is none, a
malformed attribute value is a positioned malformed-scalar error. -/
def attrUintE (maxVal : Nat) (n : Node) (name : String) :
    Except SharedError (Option Nat) :=
  match n.attrs.lookup name with
  | none => .ok none
  | some s =>
    match parseUIntStr maxVal s with
    | some v => .ok (some v)
    | none => .error (.notUint (posErrOf n))

/-- Modelled from the spec: mapChildren collects all matching children in
document order and fails on the first child whose decoder fails. -/
def mapExcept {ε α : Type} (f : Node → Except ε α) :
    List Node → Except ε (List α)
  | [] => .ok []
  | x :: xs =>
    match f x with
    | .error e => .error e
    | .ok a =>
      match mapExcept f xs with
      | .error e => .error e
      | .ok as => .ok (a :: as)

/-- Modelled from the spec: children-by-tag traversal built on mapChildren. -/
def childrenE {ε α : Type} (n : Node) (tag : String) (f : Node → Except ε α) :
    Except ε (List α) :=
  mapExcept f (n.kids.filter (fun c => c.tag == tag))

/-! ## The nom combinator layer (take_uint and NomErrorReason live in the
kanjidic_types shared module, outside src; modelled from the spec) -/

/-- Modelled from the spec: the reason carried by a nom parse failure;
a digit error comes from the mandatory leading-integer combinator and a
mapRes error from a recognizer whose mapping function rejected its input. -/
inductive NomErrorReason : Type where
  | digit : NomErrorReason
  | mapRes : NomErrorReason
deriving DecidableEq, Repr

/-- Modelled from the spec: take_uint consumes the maximal run of leading
decimal digits and parses it as a bounded unsigned integer (the leading
unsigned integer of the Moro and Oneill grammars); an empty digit run or an
out-of-range value is a parse error. -/
def takeUint (maxVal : Nat) (s : List Char) :
    Except NomErrorReason (List Char × Nat) :=
  let ds := s.takeWhile Char.isDigit
  if ds.isEmpty then .error .digit
  else
    let v := digitsVal ds
    if v ≤ maxVal then .ok (s.dropWhile Char.isDigit, v) else .error .digit

/-! ## Moro (kanjidic_parser/src/moro.rs) -/

/-- Suffix of a Morohashi index, from kanjidic_types moro. -/
inductive MoroSuffix : Type where
  | none : MoroSuffix
  | x : MoroSuffix
  | p : MoroSuffix
  | px : MoroSuffix
deriving DecidableEq, Repr

/-- Morohashi Daikanwajiten reference, from kanjidic_types moro. -/
structure Moro where
  volume : Option Nat
  page : Option Nat
  index : Nat
  suffix : MoroSuffix
deriving DecidableEq, Repr

/-- Error type of the Moro decoder (moro.rs). -/
inductive MoroError : Type where
  | shared : SharedError → MoroError
  | indexSuffix : MoroError
  | format : PosError → NomErrorReason → MoroError
deriving DecidableEq, Repr

/-- The index_suffix recognizer of moro.rs: the maximal run of ascii
alphabetic characters must be one of the closed suffix set; map_res turns a
rejected run into a nom error. -/
def indexSuffix (s : List Char) :
    Except NomErrorReason (List Char × MoroSuffix) :=
  let run := s.takeWhile Char.isAlpha
  let rest := s.dropWhile Char.isAlpha
  if run = ['X'] then .ok (rest, .x)
  else if run = ['P'] then .ok (rest, .p)
  else if run = ['P', 'X'] then .ok (rest, .px)
  else if run = [] then .ok (rest, .none)
  else .error .mapRes

/-- The parse_index function of moro.rs: a mandatory leading unsigned
integer followed by the index suffix. -/
def parseIndex (s : List Char) :
    Except NomErrorReason (List Char × (Nat × MoroSuffix)) :=
  match takeUint 65535 s with
  | .error e => .error e
  | .ok (r1, n) =>
    match indexSuffix r1 with
    | .error e => .error e
    | .ok (r2, sfx) => .ok (r2, (n, sfx))

/-- The from function of moro.rs: parse the node text as index plus suffix,
then read the independent optional volume and page attributes. -/
def Moro.fromNode (node : Node) : Except MoroError Moro :=
  match textE node with
  | .error e => .error (.shared e)
  | .ok t =>
    match parseIndex t.data with
    | .error e => .error (.format (posErrOf node) e)
    | .ok (_i, (index, suffix)) =>
      match attrUintE 255 node "m_vol" with
      | .error e => .error (.shared e)
      | .ok volume =>
        match attrUintE 65535 node "m_page" with
        | .error e => .error (.shared e)
        | .ok page => .ok ⟨volume, page, index, suffix⟩

/-! ## Oneill (kanjidic_types/src/oneill.rs) -/

/-- Suffix of a Japanese Names reference, from oneill.rs. -/
inductive OneillSuffix : Type where
  | a : OneillSuffix
deriving DecidableEq, Repr

/-- Japanese Names reference, from oneill.rs. -/
structure Oneill where
  number : Nat
  suffix : Option OneillSuffix
deriving DecidableEq, Repr

/-- Error type of the Oneill decoder (oneill.rs). -/
inductive OneillParseError : Type where
  | unknownSuffix : OneillParseError
  | format : NomErrorReason → OneillParseError
deriving DecidableEq, Repr

/-- The suffix recognizer of oneill.rs: the maximal alphabetic run must be
A or empty; map_res turns a rejected run into a nom error. -/
def oneillSuffixF (s : List Char) :
    Except NomErrorReason (List Char × Option OneillSuffix) :=
  let run := s.takeWhile Char.isAlpha
  let rest := s.dropWhile Char.isAlpha
  if run = ['A'] then .ok (rest, some .a)
  else if run = [] then .ok (rest, Option.none)
  else .error .mapRes

/-- The parts combinator of oneill.rs: leading unsigned integer then the
suffix recognizer. -/
def oneillParts (s : List Char) :
    Except NomErrorReason (List Char × (Nat × Option OneillSuffix)) :=
  match takeUint 65535 s with
  | .error e => .error e
  | .ok (r1, n) =>
    match oneillSuffixF r1 with
    | .error e => .error e
    | .ok (r2, sfx) => .ok (r2, (n, sfx))

/-- TryFrom str for Oneill: parse, drop the unconsumed remainder, and build
the record (oneill.rs). -/
def Oneill.tryFrom (text : String) : Except OneillParseError Oneill :=
  match oneillParts text.data with
  | .error e => .error (.format e)
  | .ok (_i, (number, suffix)) => .ok ⟨number, suffix⟩

/-! ## Canonical re-encoders (the spec round-trip property; no encoder
exists in the sources, so these are modelled from the spec: print the
leading unsigned integer followed by the suffix letters) -/

/-- Character for a single decimal digit. -/
def dchar (d : Nat) : Char :=
  Char.ofNat (48 + d)

/-- Fuel-driven decimal printer for natural numbers, most significant
digit first. -/
def natDigitsAux : Nat → Nat → List Char
  | 0, _ => []
  | fuel + 1, n =>
    if n < 10 then [dchar n]
    else natDigitsAux fuel (n / 10) ++ [dchar (n % 10)]

/-- Decimal digit string of a natural number. -/
def natDigits (n : Nat) : List Char :=
  natDigitsAux (n + 1) n

/-- Letters of a Moro suffix. -/
def MoroSuffix.chars : MoroSuffix → List Char
  | .none => []
  | .x => ['X']
  | .p => ['P']
  | .px => ['P', 'X']

/-- Modelled from the spec: canonical re-encoding of a decoded Moro index,
the leading unsigned integer followed by the suffix letters. -/
def moroEncode (n : Nat) (sfx : MoroSuffix) : List Char :=
  natDigits n ++ sfx.chars

/-- Letters of an Oneill suffix. -/
def oneillSuffixChars : Option OneillSuffix → List Char
  | Option.none => []
  | some .a => ['A']

/-- Modelled from the spec: canonical re-encoding of a decoded Oneill
reference, the leading unsigned integer followed by the suffix letters. -/
def oneillEncode (n : Nat) (sfx : Option OneillSuffix) : List Char :=
  natDigits n ++ oneillSuffixChars sfx

/-! ## Grade (kanjidic_parser/src/grade.rs) -/

/-- Error type of the grade decoder (grade.rs): NoText, Unrecognized and
Digit are distinct kinds. -/
inductive GradeError : Type where
  | noText : GradeError
  | unrecognized : GradeError
  | digit : GradeError
deriving DecidableEq, Repr

/-- The grade level in which the kanji is learned (grade.rs). -/
inductive Grade : Type where
  | kyouiku : Nat → Grade
  | jouyou : Grade
  | jinmeiyou : Grade
  | jinmeiyouJouyouVariant : Grade
deriving DecidableEq, Repr

/-- TryFrom Node for Grade (grade.rs): read the node text, parse it as an
u8, and map 1-6 / 8 / 9 / 10 to the grade variants; any other parsed value
is Unrecognized while a failed u8 parse is Digit. -/
def Grade.tryFrom (node : Node) : Except GradeError Grade :=
  match node.txt with
  | Option.none => .error .noText
  | some text =>
    match parseUIntStr 255 text with
    | Option.none => .error .digit
    | some n =>
      if 1 ≤ n ∧ n ≤ 6 then .ok (.kyouiku n)
      else if n = 8 then .ok .jouyou
      else if n = 9 then .ok .jinmeiyou
      else if n = 10 then .ok .jinmeiyouJouyouVariant
      else .error .unrecognized

/-! ## Remaining value types of the character record (kanjidic_types;
reference.rs and variant.rs are in src, the rest are modelled from the
data-model section of the spec) -/

/-- Kuten plane / ku / ten coordinate triple (modelled from the spec,
section 3 micro-format value types). -/
structure Kuten where
  plane : Nat
  ku : Nat
  ten : Nat
deriving DecidableEq, Repr

/-- Modelled from the spec: an alternate codepoint encoding, a unicode
scalar or a JIS-plane kuten triple. -/
inductive Codepoint : Type where
  | unicode : Nat → Codepoint
  | jis208 : Kuten → Codepoint
  | jis212 : Kuten → Codepoint
  | jis213 : Kuten → Codepoint
deriving DecidableEq, Repr

/-- Modelled from the spec: the radical classification scheme tag. -/
inductive RadicalKind : Type where
  | classical : RadicalKind
  | nelson : RadicalKind
deriving DecidableEq, Repr

/-- Modelled from the spec: a radical classification, a scheme tag plus a
fixed radical index in the range 1-214. -/
structure Radical where
  kind : RadicalKind
  radical : Nat
deriving DecidableEq, Repr

/-- Modelled from the spec: the accepted stroke count plus the historically
miscounted alternatives. -/
structure StrokeCount where
  accepted : Nat
  miscounts : List Nat
deriving DecidableEq, Repr

/-- Modelled from the spec: a De Roo code with its two positional numeric
fields (extreme top and extreme bottom shapes). -/
structure DeRoo where
  top : Nat
  bottom : Nat
deriving DecidableEq, Repr

/-- Modelled from the spec: a Spahn-Hadamitzky descriptor with its fixed
positional fields. -/
structure ShDesc where
  radicalStrokes : Nat
  radical : Char
  otherStrokes : Nat
  sequence : Nat
deriving DecidableEq, Repr

/-- Modelled from the spec: a SKIP code with its three positional numeric
fields. -/
structure Skip where
  category : Nat
  first : Nat
  second : Nat
deriving DecidableEq, Repr

/-- Modelled from the spec: a Four-Corner code, four corner stroke-shape
codes plus an optional fifth disambiguator. -/
structure FourCorner where
  topLeft : Nat
  topRight : Nat
  bottomLeft : Nat
  bottomRight : Nat
  fifthCorner : Option Nat
deriving DecidableEq, Repr

/-- Modelled from the spec: a Japanese for Busy People reference with a
volume and an optional chapter. -/
structure BusyPeople where
  volume : Nat
  chapter : Option Nat
deriving DecidableEq, Repr

/-- Variant cross-reference, from kanjidic_types/src/variant.rs. -/
inductive Variant : Type where
  | jis208 : Kuten → Variant
  | jis212 : Kuten → Variant
  | jis213 : Kuten → Variant
  | unicode : Nat → Variant
  | deRoo : DeRoo → Variant
  | halpern : Nat → Variant
  | spahnHadamitzky : ShDesc → Variant
  | nelson : Nat → Variant
  | oneill : Oneill → Variant
deriving DecidableEq, Repr

/-- Dictionary reference, from kanjidic_types/src/reference.rs. -/
inductive Reference : Type where
  | nelsonClassic : Nat → Reference
  | nelsonNew : Nat → Reference
  | njecd : Nat → Reference
  | kkd : Nat → Reference
  | kkld : Nat → Reference
  | kkld2ed : Nat → Reference
  | heisig : Nat → Reference
  | heisig6 : Nat → Reference
  | gakken : Nat → Reference
  | oneillNames : Oneill → Reference
  | oneillKk : Nat → Reference
  | moro : Moro → Reference
  | henshall : Nat → Reference
  | shKk : Nat → Reference
  | shKk2 : Nat → Reference
  | sakade : Nat → Reference
  | jfcards : Nat → Reference
  | henshall3 : Nat → Reference
  | tuttleCards : Nat → Reference
  | crowley : Nat → Reference
  | kanjiInContext : Nat → Reference
  | busyPeople : BusyPeople → Reference
  | kodanshaCompact : Nat → Reference
  | maniette : Nat → Reference
deriving DecidableEq, Repr

/-- Modelled from the spec: a query code, one of the closed set of lookup
code schemes. -/
inductive QueryCode : Type where
  | skip : Skip → QueryCode
  | spahnHadamitzky : ShDesc → QueryCode
  | fourCorner : FourCorner → QueryCode
  | deRoo : DeRoo → QueryCode
  | misclassification : Skip → QueryCode
deriving DecidableEq, Repr

/-- Modelled from the spec: the tone carried by a Pin Yin reading. -/
structure PinYin where
  romanization : String
  tone : Nat
deriving DecidableEq, Repr

/-- Modelled from the spec: the attachment kind of a Kunyomi reading. -/
inductive KunyomiKind : Type where
  | normal : KunyomiKind
  | headDash : KunyomiKind
  | tailDash : KunyomiKind
deriving DecidableEq, Repr

/-- Modelled from the spec: a Kunyomi reading with okurigana and kind. -/
structure Kunyomi where
  kind : KunyomiKind
  okurigana : List String
deriving DecidableEq, Repr

/-- Phonetic reading, from kanjidic_types (closed variant over the six
reading schemes dispatched in reading.rs). -/
inductive Reading : Type where
  | pinYin : PinYin → Reading
  | koreanRomanized : String → Reading
  | koreanHangul : String → Reading
  | vietnam : String → Reading
  | onyomi : String → Reading
  | kunyomi : Kunyomi → Reading
deriving DecidableEq, Repr

/-- Modelled from the spec: the language-tag to ordered-gloss-list mapping,
represented as an association list in first-seen order. -/
def Translations : Type :=
  List (String × List String)

instance : DecidableEq Translations :=
  fun a b => List.hasDecEq a b

/-- Modelled from the spec: the empty translations mapping. -/
def Translations.default : Translations :=
  []

/-- Append one gloss under a language tag, creating the entry when the tag
is new. -/
def Translations.push (t : Translations) (lang gloss : String) :
    Translations :=
  match t with
  | [] => [(lang, [gloss])]
  | (l, gs) :: rest =>
    if l = lang then (l, gs ++ [gloss]) :: rest
    else (l, gs) :: Translations.push rest lang gloss

/-! ## Modelled micro-format text grammars (their Rust sources are outside
src; each is modelled from the grammar description in section 4.3) -/

/-- Hexadecimal digit test. -/
def isHexChar (c : Char) : Bool :=
  c.isDigit || ('a' ≤ c && c ≤ 'f') || ('A' ≤ c && c ≤ 'F')

/-- Value of a hexadecimal digit character. -/
def hexVal (c : Char) : Nat :=
  if c.isDigit then c.toNat - 48
  else if 'a' ≤ c && c ≤ 'f' then c.toNat - 87
  else c.toNat - 55

/-- Modelled from the spec: parse a hexadecimal numeral (unicode scalar
values in the codepoint group). -/
def parseHexStr (s : String) : Option Nat :=
  if s.data ≠ [] ∧ s.data.all isHexChar then
    some (s.data.foldl (fun a c => 16 * a + hexVal c) 0)
  else Option.none

/-- Modelled from the spec: a kuten triple, three dash-separated decimal
fields. -/
def kutenParse (s : String) : Option Kuten :=
  match s.splitOn "-" with
  | [a, b, c] =>
    match parseUIntStr 255 a, parseUIntStr 255 b, parseUIntStr 255 c with
    | some p, some k, some t => some ⟨p, k, t⟩
    | _, _, _ => Option.none
  | _ => Option.none

/-- Modelled from the spec: a SKIP code, three dash-separated decimal
fields. -/
def skipParse (s : String) : Option Skip :=
  match s.splitOn "-" with
  | [a, b, c] =>
    match parseUIntStr 255 a, parseUIntStr 255 b, parseUIntStr 255 c with
    | some p, some f, some t => some ⟨p, f, t⟩
    | _, _, _ => Option.none
  | _ => Option.none

/-- Modelled from the spec: a De Roo code, a short numeral holding the
extreme top and extreme bottom fields. -/
def deRooParse (s : String) : Option DeRoo :=
  match parseUIntStr 9999 s with
  | some v => some ⟨v / 100, v % 100⟩
  | Option.none => Option.none

/-- Modelled from the spec: a Spahn-Hadamitzky descriptor, radical stroke
count, radical letter, other stroke count, a dot and a sequence numeral. -/
def shDescParse (s : String) : Option ShDesc :=
  let l := s.data
  let d1 := l.takeWhile Char.isDigit
  match l.dropWhile Char.isDigit with
  | c :: rest2 =>
    if c.isAlpha then
      let d2 := rest2.takeWhile Char.isDigit
      match rest2.dropWhile Char.isDigit with
      | '.' :: d3 =>
        if d1 ≠ [] ∧ d2 ≠ [] ∧ d3 ≠ [] ∧ d3.all Char.isDigit then
          some ⟨digitsVal d1, c, digitsVal d2, digitsVal d3⟩
        else Option.none
      | _ => Option.none
    else Option.none
  | [] => Option.none

/-- Modelled from the spec: a Four-Corner code, four corner digits plus an
optional dotted fifth digit. -/
def fourCornerParse (s : String) : Option FourCorner :=
  match s.data with
  | [a, b, c, d] =>
    if a.isDigit && b.isDigit && c.isDigit && d.isDigit then
      some ⟨a.toNat - 48, b.toNat - 48, c.toNat - 48, d.toNat - 48,
        Option.none⟩
    else Option.none
  | [a, b, c, d, '.', e] =>
    if a.isDigit && b.isDigit && c.isDigit && d.isDigit && e.isDigit then
      some ⟨a.toNat - 48, b.toNat - 48, c.toNat - 48, d.toNat - 48,
        some (e.toNat - 48)⟩
    else Option.none
  | _ => Option.none

/-- Modelled from the spec: a Busy People reference, volume dot chapter
where the chapter may be the letter A instead of a numeral. -/
def busyPeopleParse (s : String) : Option BusyPeople :=
  match s.splitOn "." with
  | [v, c] =>
    match parseUIntStr 255 v with
    | some vol =>
      if c = "A" then some ⟨vol, Option.none⟩
      else
        match parseUIntStr 255 c with
        | some ch => some ⟨vol, some ch⟩
        | Option.none => Option.none
    | Option.none => Option.none
  | _ => Option.none

/-! ## Modelled field decoders (codepoint.rs, radical.rs, stroke_count.rs,
variant.rs, reference.rs, query_code.rs, pin_yin.rs, kunyomi.rs and
translation.rs of kanjidic_parser are outside src; modelled from
section 4.4 of the spec) -/

/-- Modelled from the spec: error type of the codepoint decoder. -/
inductive CodepointError : Type where
  | shared : SharedError → CodepointError
  | unrecognizedType : PosError → CodepointError
  | format : PosError → CodepointError
deriving DecidableEq, Repr

/-- Modelled from the spec: decode one cp_value child; the cp_type
attribute selects unicode or a JIS kuten variant, anything else is an
unrecognized-variant error. -/
def codepointFrom (n : Node) : Except CodepointError Codepoint :=
  match attrE n "cp_type" with
  | .error e => .error (.shared e)
  | .ok kind =>
    match textE n with
    | .error e => .error (.shared e)
    | .ok t =>
      if kind = "ucs" then
        match parseHexStr t with
        | some v => .ok (.unicode v)
        | Option.none => .error (.format (posErrOf n))
      else if kind = "jis208" then
        match kutenParse t with
        | some k => .ok (.jis208 k)
        | Option.none => .error (.format (posErrOf n))
      else if kind = "jis212" then
        match kutenParse t with
        | some k => .ok (.jis212 k)
        | Option.none => .error (.format (posErrOf n))
      else if kind = "jis213" then
        match kutenParse t with
        | some k => .ok (.jis213 k)
        | Option.none => .error (.format (posErrOf n))
      else .error (.unrecognizedType (posErrOf n))

/-- Modelled from the spec: error type of the radical decoder. -/
inductive RadicalError : Type where
  | shared : SharedError → RadicalError
  | unrecognizedType : PosError → RadicalError
  | outOfRange : PosError → RadicalError
deriving DecidableEq, Repr

/-- Modelled from the spec: decode one rad_value child; the rad_type
attribute selects the classification scheme and the text is a radical
index in the fixed range 1-214. -/
def radicalFrom (n : Node) : Except RadicalError Radical :=
  match attrE n "rad_type" with
  | .error e => .error (.shared e)
  | .ok kindName =>
    match
      (if kindName = "classical" then some RadicalKind.classical
       else if kindName = "nelson_c" then some RadicalKind.nelson
       else Option.none) with
    | Option.none => .error (.unrecognizedType (posErrOf n))
    | some kind =>
      match textUintE 255 n with
      | .error e => .error (.shared e)
      | .ok v =>
        if 1 ≤ v ∧ v ≤ 214 then .ok ⟨kind, v⟩
        else .error (.outOfRange (posErrOf n))

/-- Modelled from the spec: error type of the stroke count decoder. -/
inductive StrokeCountError : Type where
  | shared : SharedError → StrokeCountError
  | accepted : PosError → StrokeCountError
deriving DecidableEq, Repr

/-- Modelled from the spec: the accepted stroke count is the first
stroke_count child of the misc group and is mandatory; later occurrences
are the miscounted alternatives. -/
def strokeCountFrom (misc : Node) : Except StrokeCountError StrokeCount :=
  match childrenE misc "stroke_count" (textUintE 255) with
  | .error e => .error (.shared e)
  | .ok [] => .error (.accepted (posErrOf misc))
  | .ok (a :: rest) => .ok ⟨a, rest⟩

/-- Modelled from the spec: error type of the variant decoder. -/
inductive VariantError : Type where
  | shared : SharedError → VariantError
  | unrecognizedType : PosError → VariantError
  | format : PosError → VariantError
deriving DecidableEq, Repr

/-- Modelled from the spec: decode one variant child; the var_type
attribute selects one of the closed set of variant scheme shapes and the
payload is a bare integer or a delegated micro-format decode. -/
def variantFrom (n : Node) : Except VariantError Variant :=
  match attrE n "var_type" with
  | .error e => .error (.shared e)
  | .ok kind =>
    match textE n with
    | .error e => .error (.shared e)
    | .ok t =>
      if kind = "jis208" then
        match kutenParse t with
        | some k => .ok (.jis208 k)
        | Option.none => .error (.format (posErrOf n))
      else if kind = "jis212" then
        match kutenParse t with
        | some k => .ok (.jis212 k)
        | Option.none => .error (.format (posErrOf n))
      else if kind = "jis213" then
        match kutenParse t with
        | some k => .ok (.jis213 k)
        | Option.none => .error (.format (posErrOf n))
      else if kind = "ucs" then
        match parseHexStr t with
        | some v => .ok (.unicode v)
        | Option.none => .error (.format (posErrOf n))
      else if kind = "deroo" then
        match deRooParse t with
        | some d => .ok (.deRoo d)
        | Option.none => .error (.format (posErrOf n))
      else if kind = "njecd" then
        match parseUIntStr 65535 t with
        | some v => .ok (.halpern v)
        | Option.none => .error (.format (posErrOf n))
      else if kind = "s_h" then
        match shDescParse t with
        | some d => .ok (.spahnHadamitzky d)
        | Option.none => .error (.format (posErrOf n))
      else if kind = "nelson_c" then
        match parseUIntStr 65535 t with
        | some v => .ok (.nelson v)
        | Option.none => .error (.format (posErrOf n))
      else if kind = "oneill" then
        match Oneill.tryFrom t with
        | .ok o => .ok (.oneill o)
        | .error _ => .error (.format (posErrOf n))
      else .error (.unrecognizedType (posErrOf n))

/-- Modelled from the spec: error type of the dictionary reference
decoder. -/
inductive ReferenceError : Type where
  | shared : SharedError → ReferenceError
  | unrecognizedType : PosError → ReferenceError
  | format : PosError → ReferenceError
  | moro : MoroError → ReferenceError
  | oneill : OneillParseError → ReferenceError
deriving DecidableEq, Repr

/-- Modelled from the spec: decode one dic_ref child; the dr_type attribute
selects one of the closed set of reference book shapes; Moro and Oneill
payloads delegate to their micro-format decoders, the rest are bare
integers. -/
def referenceFrom (n : Node) : Except ReferenceError Reference :=
  match attrE n "dr_type" with
  | .error e => .error (.shared e)
  | .ok kind =>
    if kind = "moro" then
      match Moro.fromNode n with
      | .ok m => .ok (.moro m)
      | .error e => .error (.moro e)
    else if kind = "oneill_names" then
      match textE n with
      | .error e => .error (.shared e)
      | .ok t =>
        match Oneill.tryFrom t with
        | .ok o => .ok (.oneillNames o)
        | .error e => .error (.oneill e)
    else if kind = "busy_people" then
      match textE n with
      | .error e => .error (.shared e)
      | .ok t =>
        match busyPeopleParse t with
        | some b => .ok (.busyPeople b)
        | Option.none => .error (.format (posErrOf n))
    else
      match
        (if kind = "nelson_c" then some Reference.nelsonClassic
         else if kind = "nelson_n" then some Reference.nelsonNew
         else if kind = "halpern_njecd" then some Reference.njecd
         else if kind = "halpern_kkd" then some Reference.kkd
         else if kind = "halpern_kkld" then some Reference.kkld
         else if kind = "halpern_kkld_2ed" then some Reference.kkld2ed
         else if kind = "heisig" then some Reference.heisig
         else if kind = "heisig6" then some Reference.heisig6
         else if kind = "gakken" then some Reference.gakken
         else if kind = "oneill_kk" then some Reference.oneillKk
         else if kind = "henshall" then some Reference.henshall
         else if kind = "sh_kk" then some Reference.shKk
         else if kind = "sh_kk2" then some Reference.shKk2
         else if kind = "sakade" then some Reference.sakade
         else if kind = "jf_cards" then some Reference.jfcards
         else if kind = "henshall3" then some Reference.henshall3
         else if kind = "tutt_cards" then some Reference.tuttleCards
         else if kind = "crowley" then some Reference.crowley
         else if kind = "kanji_in_context" then some Reference.kanjiInContext
         else if kind = "kodansha_compact" then some Reference.kodanshaCompact
         else if kind = "maniette" then some Reference.maniette
         else Option.none) with
      | Option.none => .error (.unrecognizedType (posErrOf n))
      | some ctor =>
        match textUintE 65535 n with
        | .error e => .error (.shared e)
        | .ok v => .ok (ctor v)

/-- Modelled from the spec: error type of the query code decoder. -/
inductive QueryCodeError : Type where
  | shared : SharedError → QueryCodeError
  | unrecognizedType : PosError → QueryCodeError
  | format : PosError → QueryCodeError
deriving DecidableEq, Repr

/-- Modelled from the spec: decode one q_code child; the qc_type attribute
selects SKIP, Spahn-Hadamitzky, Four-Corner, De Roo or a SKIP
misclassification. -/
def queryCodeFrom (n : Node) : Except QueryCodeError QueryCode :=
  match attrE n "qc_type" with
  | .error e => .error (.shared e)
  | .ok kind =>
    match textE n with
    | .error e => .error (.shared e)
    | .ok t =>
      if kind = "skip" then
        match skipParse t with
        | some s => .ok (.skip s)
        | Option.none => .error (.format (posErrOf n))
      else if kind = "sh_desc" then
        match shDescParse t with
        | some d => .ok (.spahnHadamitzky d)
        | Option.none => .error (.format (posErrOf n))
      else if kind = "four_corner" then
        match fourCornerParse t with
        | some f => .ok (.fourCorner f)
        | Option.none => .error (.format (posErrOf n))
      else if kind = "deroo" then
        match deRooParse t with
        | some d => .ok (.deRoo d)
        | Option.none => .error (.format (posErrOf n))
      else if kind = "misclass" then
        match skipParse t with
        | some s => .ok (.misclassification s)
        | Option.none => .error (.format (posErrOf n))
      else .error (.unrecognizedType (posErrOf n))

/-- Modelled from the spec: error type of the Pin Yin decoder. -/
inductive PinYinError : Type where
  | shared : SharedError → PinYinError
  | format : PosError → PinYinError
deriving DecidableEq, Repr

/-- Modelled from the spec: a Pin Yin reading is a romanization followed by
a tone digit between one and five. -/
def pinYinFrom (n : Node) : Except PinYinError PinYin :=
  match textE n with
  | .error e => .error (.shared e)
  | .ok t =>
    let rom := t.data.takeWhile Char.isAlpha
    match t.data.dropWhile Char.isAlpha with
    | [d] =>
      if d.isDigit ∧ 1 ≤ d.toNat - 48 ∧ d.toNat - 48 ≤ 5 ∧ rom ≠ [] then
        .ok ⟨⟨rom⟩, d.toNat - 48⟩
      else .error (.format (posErrOf n))
    | _ => .error (.format (posErrOf n))

/-- Modelled from the spec: error type of the Kunyomi decoder. -/
inductive KunyomiError : Type where
  | shared : SharedError → KunyomiError
  | format : PosError → KunyomiError
deriving DecidableEq, Repr

/-- Modelled from the spec: a Kunyomi reading carries an attachment kind
marked by a leading or trailing dash and dot-separated okurigana. -/
def kunyomiFrom (n : Node) : Except KunyomiError Kunyomi :=
  match textE n with
  | .error e => .error (.shared e)
  | .ok t =>
    if t = "" then .error (.format (posErrOf n))
    else
      let (kind, body) :=
        if t.startsWith "-" then (KunyomiKind.headDash, t.drop 1)
        else if t.endsWith "-" then (KunyomiKind.tailDash, t.dropRight 1)
        else (KunyomiKind.normal, t)
      .ok ⟨kind, body.splitOn "."⟩

/-! ## Reading (kanjidic_parser/src/reading.rs) -/

/-- Error type of the reading decoder (reading.rs). -/
inductive ReadingError : Type where
  | shared : SharedError → ReadingError
  | unrecognizedType : PosError → ReadingError
  | pinYin : PinYinError → ReadingError
  | kunyomi : KunyomiError → ReadingError
deriving DecidableEq, Repr

/-- The from function of reading.rs: dispatch on the r_type attribute over
the closed vocabulary of reading schemes; any other value is an
unrecognized-variant error. -/
def Reading.fromNode (node : Node) : Except ReadingError Reading :=
  match attrE node "r_type" with
  | .error e => .error (.shared e)
  | .ok rType =>
    if rType = "pinyin" then
      match pinYinFrom node with
      | .ok p => .ok (.pinYin p)
      | .error e => .error (.pinYin e)
    else if rType = "korean_r" then
      match textE node with
      | .ok t => .ok (.koreanRomanized t)
      | .error e => .error (.shared e)
    else if rType = "korean_h" then
      match textE node with
      | .ok t => .ok (.koreanHangul t)
      | .error e => .error (.shared e)
    else if rType = "vietnam" then
      match textE node with
      | .ok t => .ok (.vietnam t)
      | .error e => .error (.shared e)
    else if rType = "ja_on" then
      match textE node with
      | .ok t => .ok (.onyomi t)
      | .error e => .error (.shared e)
    else if rType = "ja_kun" then
      match kunyomiFrom node with
      | .ok k => .ok (.kunyomi k)
      | .error e => .error (.kunyomi e)
    else .error (.unrecognizedType (posErrOf node))

/-! ## Translations (kanjidic_parser/src/translation.rs is outside src;
modelled from section 4.4 of the spec) -/

/-- Modelled from the spec: error type of the translation decoder. -/
inductive TranslationError : Type where
  | shared : SharedError → TranslationError
deriving DecidableEq, Repr

/-- Fold the meaning children into the language-tagged gloss mapping. -/
def translationFold : List Node → Translations →
    Except TranslationError Translations
  | [], acc => .ok acc
  | c :: rest, acc =>
    match textE c with
    | .error e => .error (.shared e)
    | .ok gloss =>
      let lang := ((attrE c "m_lang").toOption).getD "en"
      translationFold rest (acc.push lang gloss)

/-- Modelled from the spec: language-tagged translations are read from the
meaning children of the rmgroup; the language is inferred from the optional
m_lang attribute, defaulting to English when absent. -/
def translationFrom (rmgroup : Node) : Except TranslationError Translations :=
  translationFold (rmgroup.kids.filter (fun c => c.tag == "meaning")) []

/-! ## Character record assembly (kanjidic_parser/src/character.rs) -/

/-- Error type of the record assembler (character.rs): each field group
wraps its own error kind, plus the nanori text error and the single-char
literal error. -/
inductive CharacterError : Type where
  | shared : SharedError → CharacterError
  | codepoint : CodepointError → CharacterError
  | radical : RadicalError → CharacterError
  | grade : GradeError → CharacterError
  | strokeCount : StrokeCountError → CharacterError
  | variant : VariantError → CharacterError
  | translation : TranslationError → CharacterError
  | reading : ReadingError → CharacterError
  | queryCode : QueryCodeError → CharacterError
  | dictionaryReference : ReferenceError → CharacterError
  | nanoriText : PosError → CharacterError
  | nonCharString : CharacterError
deriving DecidableEq, Repr

/-- The string_to_char function of character.rs: the first char is taken
and a second char, or an empty string, is a hard error. -/
def stringToChar (s : String) : Except CharacterError Char :=
  match s.data with
  | [] => .error .nonCharString
  | [c] => .ok c
  | _ :: _ :: _ => .error .nonCharString

/-- The coalesce helper of character.rs, transposing an optional result. -/
def coalesce {ε α : Type} (opt : Option (Except ε α)) :
    Except ε (Option α) :=
  match opt with
  | Option.none => .ok Option.none
  | some (.error e) => .error e
  | some (.ok v) => .ok (some v)

/-- The fully decoded character record, from kanjidic_types (field set as
assembled by character.rs). -/
structure Character where
  literal : Char
  codepoints : List Codepoint
  radicals : List Radical
  grade : Option Grade
  strokeCounts : StrokeCount
  variants : List Variant
  frequency : Option Nat
  radicalNames : List String
  jlpt : Option Nat
  references : List Reference
  queryCodes : List QueryCode
  nanori : List String
  readings : List Reading
  translations : Translations
  decomposition : List Char
deriving DecidableEq

/-- Modelled from the spec: the external static decomposition table, an
immutable mapping from a character to its ordered constituent radicals,
represented here by the entry the spec test scenario enumerates. -/
def decompositionTable : List (Char × List Char) :=
  [('亜', ['｜', '一', '口'])]

/-- The decomposition lookup of character.rs: scan the static table for the
literal and return its radicals, or an empty list when absent. -/
def decompositionOf (literal : Char) : List Char :=
  match decompositionTable.find? (fun d => d.1 == literal) with
  | some d => d.2
  | Option.none => []

/-- The nanori closure of character.rs: each nanori child of the
reading_meaning node must carry text, and a missing text is reported as a
nanori error positioned at the reading_meaning node. -/
def nanoriOf (readingMeaning : Node) : Except CharacterError (List String) :=
  childrenE readingMeaning "nanori" (fun c =>
    match textE c with
    | .ok s => .ok s
    | .error _ => .error (.nanoriText (posErrOf readingMeaning)))

/-- The dic_number branch of character.rs from: a missing dic_number child
is tolerated as an empty reference list, any other shared error is
re-raised, and a present group maps its dic_ref children. -/
def referencesPart (node : Node) : Except CharacterError (List Reference) :=
  match childE node "dic_number" with
  | .ok dicNumber =>
    match childrenE dicNumber "dic_ref" referenceFrom with
    | .error e => .error (CharacterError.dictionaryReference e)
    | .ok refs => .ok refs
  | .error (SharedError.missingChild _ _) => .ok []
  | .error other => .error (CharacterError.shared other)

/-- The reading_meaning branch of character.rs from: an absent group yields
empty readings, nanori and translations; a present group requires the
rmgroup child and decodes readings, translations and nanori from it. -/
def readingMeaningPart (node : Node) :
    Except CharacterError (List Reading × List String × Translations) :=
  match childE node "reading_meaning" with
  | .ok readingMeaning =>
    (match childE readingMeaning "rmgroup" with
     | .error e => .error (CharacterError.shared e)
     | .ok rmgroup =>
     match childrenE rmgroup "reading" Reading.fromNode with
     | .error e => .error (CharacterError.reading e)
     | .ok readings =>
     match translationFrom rmgroup with
     | .error e => .error (CharacterError.translation e)
     | .ok translations =>
     match nanoriOf readingMeaning with
     | .error e => .error e
     | .ok nanori => .ok (readings, nanori, translations))
  | .error _ => .ok ([], [], Translations.default)

/-- The from function of character.rs: assemble the record from one
character node, enforcing the mandatory/optional group policy: literal,
codepoint group, radical group, misc group and query_code group are
mandatory, while dic_number and reading_meaning are tolerated as absent. -/
def Character.fromNode (node : Node) : Except CharacterError Character :=
  match childE node "literal" with
  | .error e => .error (.shared e)
  | .ok litNode =>
  match textE litNode with
  | .error e => .error (.shared e)
  | .ok litText =>
  match stringToChar litText with
  | .error e => .error e
  | .ok literal =>
  match childE node "codepoint" with
  | .error e => .error (.shared e)
  | .ok cpNode =>
  match childrenE cpNode "cp_value" codepointFrom with
  | .error e => .error (.codepoint e)
  | .ok codepoints =>
  match childE node "radical" with
  | .error e => .error (.shared e)
  | .ok radNode =>
  match childrenE radNode "rad_value" radicalFrom with
  | .error e => .error (.radical e)
  | .ok radicals =>
  match childE node "misc" with
  | .error e => .error (.shared e)
  | .ok misc =>
  match coalesce (((childE misc "grade").toOption).map Grade.tryFrom) with
  | .error e => .error (.grade e)
  | .ok grade =>
  match strokeCountFrom misc with
  | .error e => .error (.strokeCount e)
  | .ok strokeCounts =>
  match childrenE misc "variant" variantFrom with
  | .error e => .error (.variant e)
  | .ok variants =>
  match coalesce (((childE misc "freq").toOption).map (textUintE 65535)) with
  | .error e => .error (.shared e)
  | .ok frequency =>
  match childrenE misc "rad_name" textE with
  | .error e => .error (.shared e)
  | .ok radicalNames =>
  match coalesce (((childE misc "jlpt").toOption).map (textUintE 255)) with
  | .error e => .error (.shared e)
  | .ok jlpt =>
  match referencesPart node with
  | .error e => .error e
  | .ok references =>
  match childE node "query_code" with
  | .error e => .error (.shared e)
  | .ok qcNode =>
  match childrenE qcNode "q_code" queryCodeFrom with
  | .error e => .error (.queryCode e)
  | .ok queryCodes =>
  match readingMeaningPart node with
  | .error e => .error e
  | .ok (readings, nanori, translations) =>
  .ok
    { literal := literal
      codepoints := codepoints
      radicals := radicals
      grade := grade
      strokeCounts := strokeCounts
      variants := variants
      frequency := frequency
      radicalNames := radicalNames
      jlpt := jlpt
      references := references
      queryCodes := queryCodes
      nanori := nanori
      readings := readings
      translations := translations
      decomposition := decompositionOf literal }

/-! ## Concrete fixture nodes used to evaluate the theorems -/

/-- Literal child of the fixture character node. -/
def wLit : Node := .mk "literal" [] (some "a") 1 []

/-- Codepoint group of the fixture character node (no cp_value children). -/
def wCp : Node := .mk "codepoint" [] Option.none 2 []

/-- Radical group of the fixture character node. -/
def wRad : Node := .mk "radical" [] Option.none 3 []

/-- Stroke count child of the fixture misc group. -/
def wSc : Node := .mk "stroke_count" [] (some "7") 5 []

/-- Misc group of the fixture character node. -/
def wMisc : Node := .mk "misc" [] Option.none 4 [wSc]

/-- Query code group of the fixture character node. -/
def wQc : Node := .mk "query_code" [] Option.none 6 []

/-- Meaning child of the fixture rmgroup. -/
def wMeaning : Node := .mk "meaning" [] (some "Asia") 9 []

/-- Rmgroup of the fixture reading_meaning group. -/
def wRmg : Node := .mk "rmgroup" [] Option.none 8 [wMeaning]

/-- Well-formed nanori child of the fixture reading_meaning group. -/
def wNan : Node := .mk "nanori" [] (some "ya") 10 []

/-- Fixture reading_meaning group. -/
def wRm : Node := .mk "reading_meaning" [] Option.none 7 [wRmg, wNan]

/-- Fixture character node with every mandatory group present and the two
optional groups in their simplest well-formed shape. -/
def wChar : Node :=
  .mk "character" [] Option.none 0 [wLit, wCp, wRad, wMisc, wQc, wRm]

/-- The record decoded from the fixture character node. -/
def wRecord : Character :=
  { literal := 'a', codepoints := [], radicals := [], grade := Option.none,
    strokeCounts := ⟨7, []⟩, variants := [], frequency := Option.none,
    radicalNames := [], jlpt := Option.none, references := [],
    queryCodes := [], nanori := ["ya"], readings := [],
    translations := [("en", ["Asia"])], decomposition := [] }

/-- Nanori child that carries no text, used for the positional error
claims. -/
def wNanBad : Node := .mk "nanori" [] Option.none 11 []

/-- Reading_meaning group whose single nanori child carries no text. -/
def wRmBad : Node := .mk "reading_meaning" [] Option.none 7 [wRmg, wNanBad]

/-- Fixture character node whose reading_meaning group has a text-less
nanori child. -/
def wCharBad : Node :=
  .mk "character" [] Option.none 0 [wLit, wCp, wRad, wMisc, wQc, wRmBad]

/-- Grade node carrying the numeral 256, which overflows an u8. -/
def wGrade256 : Node := .mk "grade" [] (some "256") 20 []

/-- Grade node carrying the numeral 3. -/
def wGrade3 : Node := .mk "grade" [] (some "3") 21 []

/-- Grade node carrying non-numeric text. -/
def wGradeBad : Node := .mk "grade" [] (some "x") 22 []

/-- Reading node whose r_type attribute is outside the closed reading
vocabulary. -/
def wReadingBogus : Node :=
  .mk "reading" [("r_type", "bogus")] (some "foo") 23 []

/-- Reading node with the vietnam r_type. -/
def wReadingViet : Node :=
  .mk "reading" [("r_type", "vietnam")] (some "A") 24 []

/-! ## Helper lemmas about digit runs and decimal printing -/

lemma takeWhile_append_eq (p : Char → Bool) (l r : List Char)
    (hl : ∀ c ∈ l, p c = true) (hr : ∀ c cs, r = c :: cs → p c = false) :
    (l ++ r).takeWhile p = l := by
  induction l with
  | nil =>
    cases r with
    | nil => rfl
    | cons c cs => simp [List.takeWhile, hr c cs rfl]
  | cons c cs ih =>
    have hc := hl c (by simp)
    have ih2 := ih (fun d hd => hl d (by simp [hd]))
    simpa [List.takeWhile, hc] using ih2

lemma dropWhile_append_eq (p : Char → Bool) (l r : List Char)
    (hl : ∀ c ∈ l, p c = true) (hr : ∀ c cs, r = c :: cs → p c = false) :
    (l ++ r).dropWhile p = r := by
  induction l with
  | nil =>
    cases r with
    | nil => rfl
    | cons c cs => simp [List.dropWhile, hr c cs rfl]
  | cons c cs ih =>
    have hc := hl c (by simp)
    have ih2 := ih (fun d hd => hl d (by simp [hd]))
    simpa [List.dropWhile, hc] using ih2

lemma dchar_isDigit {d : Nat} (h : d < 10) : (dchar d).isDigit = true := by
  interval_cases d <;> decide

lemma dchar_toNat {d : Nat} (h : d < 10) : (dchar d).toNat - 48 = d := by
  interval_cases d <;> decide

lemma digitsVal_append_one (l : List Char) (c : Char) :
    digitsVal (l ++ [c]) = 10 * digitsVal l + (c.toNat - 48) := by
  simp [digitsVal, List.foldl_append]

lemma natDigitsAux_spec :
    ∀ fuel n, n < fuel →
      natDigitsAux fuel n ≠ [] ∧
      (∀ c ∈ natDigitsAux fuel n, c.isDigit = true) ∧
      digitsVal (natDigitsAux fuel n) = n := by
  intro fuel
  induction fuel with
  | zero => omega
  | succ fuel ih =>
    intro n hn
    by_cases h10 : n < 10
    · refine ⟨by simp [natDigitsAux, h10], ?_, ?_⟩
      · intro c hc
        simp [natDigitsAux, h10] at hc
        simpa [hc] using dchar_isDigit h10
      · simpa [natDigitsAux, h10, digitsVal] using dchar_toNat h10
    · have hdiv : n / 10 < n := Nat.div_lt_self (by omega) (by omega)
      obtain ⟨h1, h2, h3⟩ := ih (n / 10) (by omega)
      have hmod : n % 10 < 10 := Nat.mod_lt _ (by omega)
      refine ⟨by simp [natDigitsAux, h10], ?_, ?_⟩
      · intro c hc
        simp [natDigitsAux, h10] at hc
        rcases hc with hc | hc
        · exact h2 c hc
        · simpa [hc] using dchar_isDigit hmod
      · simp only [natDigitsAux, if_neg h10]
        rw [digitsVal_append_one, h3, dchar_toNat hmod]
        omega

lemma natDigits_ne_nil (n : Nat) : natDigits n ≠ [] :=
  (natDigitsAux_spec (n + 1) n (by omega)).1

lemma natDigits_all_digit (n : Nat) :
    ∀ c ∈ natDigits n, c.isDigit = true :=
  (natDigitsAux_spec (n + 1) n (by omega)).2.1

lemma digitsVal_natDigits (n : Nat) : digitsVal (natDigits n) = n :=
  (natDigitsAux_spec (n + 1) n (by omega)).2.2

lemma moroChars_head_not_digit (sfx : MoroSuffix) :
    ∀ c cs, sfx.chars = c :: cs → c.isDigit = false := by
  cases sfx <;> intro c cs h <;> cases h <;> decide

lemma oneillChars_head_not_digit (osfx : Option OneillSuffix) :
    ∀ c cs, oneillSuffixChars osfx = c :: cs → c.isDigit = false := by
  rcases osfx with _ | s
  · intro c cs h
    cases h
  · cases s
    intro c cs h
    cases h
    decide

lemma takeUint_encode (maxVal n : Nat) (hn : n ≤ maxVal) (r : List Char)
    (hr : ∀ c cs, r = c :: cs → c.isDigit = false) :
    takeUint maxVal (natDigits n ++ r) = .ok (r, n) := by
  unfold takeUint
  rw [takeWhile_append_eq _ _ _ (natDigits_all_digit n) hr,
    dropWhile_append_eq _ _ _ (natDigits_all_digit n) hr]
  simp [List.isEmpty_iff, natDigits_ne_nil, digitsVal_natDigits, hn]

/-! ## Claim C1: round trip of the Moro and Oneill decoders -/

/-- Claim C1 counterexample: the string 272X9 is accepted by the Moro index
decoder but re-encoding the decoded index and suffix yields 272X, not the
original string, because the trailing remainder is silently discarded. -/
theorem c1_roundtrip_counterexample :
    parseIndex "272X9".data = .ok ("9".data, (272, MoroSuffix.x)) ∧
    moroEncode 272 MoroSuffix.x = "272X".data ∧
    moroEncode 272 MoroSuffix.x ≠ "272X9".data := by
  exact ⟨rfl, rfl, by decide⟩

/-- Claim C1 as amended: re-encoding inverts decoding on the canonical
strings, those consisting of the decimal numeral without leading zeros
followed by the suffix letters and nothing else; on such strings the Moro
and Oneill decoders succeed, consume the whole input and return exactly the
printed value, so re-encoding reproduces the original string. -/
theorem c1_roundtrip_amended :
    (∀ n sfx, n ≤ 65535 →
      parseIndex (moroEncode n sfx) = .ok ([], (n, sfx))) ∧
    (∀ n osfx, n ≤ 65535 →
      oneillParts (oneillEncode n osfx) = .ok ([], (n, osfx)) ∧
      Oneill.tryFrom ⟨oneillEncode n osfx⟩ = .ok ⟨n, osfx⟩) := by
  constructor
  · intro n sfx hn
    have htu := takeUint_encode 65535 n hn sfx.chars
      (moroChars_head_not_digit sfx)
    unfold moroEncode
    unfold parseIndex
    rw [htu]
    cases sfx <;> simp [indexSuffix, MoroSuffix.chars]
  · intro n osfx hn
    have htu := takeUint_encode 65535 n hn (oneillSuffixChars osfx)
      (oneillChars_head_not_digit osfx)
    have hparts : oneillParts (oneillEncode n osfx) = .ok ([], (n, osfx)) := by
      unfold oneillEncode
      unfold oneillParts
      rw [htu]
      rcases osfx with _ | s
      · simp [oneillSuffixF, oneillSuffixChars]
      · cases s
        simp [oneillSuffixF, oneillSuffixChars]
    refine ⟨hparts, ?_⟩
    unfold Oneill.tryFrom
    rw [show (String.mk (oneillEncode n osfx)).data = oneillEncode n osfx
      from rfl, hparts]

/-- Claim C1 witness: the amended round trip evaluated at the Moro index
272X and the Oneill reference 525A. -/
theorem c1_roundtrip_witness :
    (272 ≤ 65535 ∧
      parseIndex (moroEncode 272 MoroSuffix.x) =
        .ok ([], (272, MoroSuffix.x))) ∧
    (525 ≤ 65535 ∧
      Oneill.tryFrom ⟨oneillEncode 525 (some OneillSuffix.a)⟩ =
        .ok ⟨525, some OneillSuffix.a⟩) :=
  ⟨⟨by decide, c1_roundtrip_amended.1 272 MoroSuffix.x (by decide)⟩,
   ⟨by decide,
    (c1_roundtrip_amended.2 525 (some OneillSuffix.a) (by decide)).2⟩⟩

/-! ## Claim C6: the Moro suffix grammar -/

/-- Claim C6: after the mandatory leading unsigned integer, an empty
alphabetic run decodes to no suffix, X to X, P to P and PX to PX; any other
alphabetic run is a decode error, and a string without a leading integer is
a decode error. -/
theorem c6_moro_suffix (s : List Char) :
    (∀ rest n, takeUint 65535 s = .ok (rest, n) →
      ((rest.takeWhile Char.isAlpha = [] →
          parseIndex s = .ok (rest.dropWhile Char.isAlpha, (n, .none))) ∧
       (rest.takeWhile Char.isAlpha = ['X'] →
          parseIndex s = .ok (rest.dropWhile Char.isAlpha, (n, .x))) ∧
       (rest.takeWhile Char.isAlpha = ['P'] →
          parseIndex s = .ok (rest.dropWhile Char.isAlpha, (n, .p))) ∧
       (rest.takeWhile Char.isAlpha = ['P', 'X'] →
          parseIndex s = .ok (rest.dropWhile Char.isAlpha, (n, .px))) ∧
       (rest.takeWhile Char.isAlpha ≠ [] →
        rest.takeWhile Char.isAlpha ≠ ['X'] →
        rest.takeWhile Char.isAlpha ≠ ['P'] →
        rest.takeWhile Char.isAlpha ≠ ['P', 'X'] →
          parseIndex s = .error .mapRes))) ∧
    (s.takeWhile Char.isDigit = [] →
      parseIndex s = .error .digit) := by
  constructor
  · intro rest n htu
    unfold parseIndex
    rw [htu]
    refine ⟨?_, ?_, ?_, ?_, ?_⟩
    · intro h
      simp [indexSuffix, h]
    · intro h
      simp [indexSuffix, h]
    · intro h
      simp [indexSuffix, h]
    · intro h
      simp [indexSuffix, h]
    · intro h1 h2 h3 h4
      simp [indexSuffix, h1, h2, h3, h4]
  · intro hd
    unfold parseIndex takeUint
    simp [hd]

/-- Claim C6 witness: the suffix grammar evaluated on 12PX, together with
the rejection of a string without a leading integer. -/
theorem c6_moro_suffix_witness :
    takeUint 65535 "12PX".data = .ok ("PX".data, 12) ∧
    parseIndex "12PX".data = .ok ([], (12, MoroSuffix.px)) ∧
    "PX".data.takeWhile Char.isDigit = [] ∧
    parseIndex "PX".data = .error .digit := by
  refine ⟨rfl, ?_, rfl, ?_⟩
  · exact ((c6_moro_suffix "12PX".data).1 "PX".data 12 rfl).2.2.2.1 rfl
  · exact (c6_moro_suffix "PX".data).2 rfl

/-! ## Claim C10: trailing characters after the accepted grammar are
silently discarded -/

/-- Claim C10: both the Moro and the Oneill index decoders accept strings
with extra characters after the integer-plus-suffix; the value decoded from
the consumed part is returned and the remainder is ignored, also through
the node-level Moro decoder. -/
theorem c10_trailing_ignored :
    parseIndex "272X9".data = .ok ("9".data, (272, MoroSuffix.x)) ∧
    Moro.fromNode (.mk "dic_ref" [] (some "272X9") 0 []) =
      .ok ⟨Option.none, Option.none, 272, MoroSuffix.x⟩ ∧
    Oneill.tryFrom "525A7" = .ok ⟨525, some OneillSuffix.a⟩ := by
  exact ⟨rfl, rfl, rfl⟩

/-! ## Claim C2: grade decoding -/

lemma parseUIntStr_digits (maxVal : Nat) (t : String)
    (h1 : t.data ≠ []) (h2 : t.data.all Char.isDigit = true) :
    parseUIntStr maxVal t =
      if digitsVal t.data ≤ maxVal then some (digitsVal t.data)
      else Option.none := by
  have hplus : t.data.head? ≠ some '+' := by
    cases ht : t.data with
    | nil => exact absurd ht h1
    | cons c cs =>
      have hc : c.isDigit = true := by
        rw [ht] at h2
        simpa using (List.all_eq_true.mp h2 c (by simp))
      simp only [List.head?, ne_eq, Option.some.injEq]
      intro hEq
      rw [hEq] at hc
      exact absurd hc (by decide)
  unfold parseUIntStr
  simp [hplus, h1, h2]

/-- Claim C2 counterexample: the numeral 256 is rejected, but with the
not-a-digit error kind (the u8 parse overflows), not the unrecognized kind
the claim promises for every rejected numeral. -/
theorem c2_grade_counterexample :
    Grade.tryFrom wGrade256 = .error GradeError.digit ∧
    GradeError.digit ≠ GradeError.unrecognized := by
  exact ⟨rfl, by decide⟩

/-- Claim C2 as amended: for numeric text, values 1-6 decode to the
per-digit school grade, 8 to general Jouyou, 9 to Jinmeiyou and 10 to the
Jinmeiyou variant; rejected numerals up to 255 yield the unrecognized
error kind, while numerals 256 and above overflow the u8 parse and yield
the not-a-digit kind, the same kind produced by non-numeric text. -/
theorem c2_grade_amended (node : Node) (t : String)
    (ht : node.txt = some t) :
    (t.data ≠ [] → t.data.all Char.isDigit = true →
      ((1 ≤ digitsVal t.data ∧ digitsVal t.data ≤ 6 →
         Grade.tryFrom node = .ok (.kyouiku (digitsVal t.data))) ∧
       (digitsVal t.data = 8 → Grade.tryFrom node = .ok .jouyou) ∧
       (digitsVal t.data = 9 → Grade.tryFrom node = .ok .jinmeiyou) ∧
       (digitsVal t.data = 10 →
         Grade.tryFrom node = .ok .jinmeiyouJouyouVariant) ∧
       ((digitsVal t.data = 0 ∨ digitsVal t.data = 7 ∨
           (11 ≤ digitsVal t.data ∧ digitsVal t.data ≤ 255)) →
         Grade.tryFrom node = .error .unrecognized) ∧
       (256 ≤ digitsVal t.data →
         Grade.tryFrom node = .error .digit))) ∧
    (parseUIntStr 255 t = Option.none →
      Grade.tryFrom node = .error .digit) := by
  constructor
  · intro h1 h2
    refine ⟨?_, ?_, ?_, ?_, ?_, ?_⟩ <;> intro hv
    case _ | _ | _ | _ | _ =>
      have hsome : parseUIntStr 255 t = some (digitsVal t.data) := by
        rw [parseUIntStr_digits 255 t h1 h2, if_pos (by omega)]
      unfold Grade.tryFrom
      rw [ht]
      simp only [hsome]
      split_ifs <;> first | rfl | omega
    case _ =>
      have hnone : parseUIntStr 255 t = Option.none := by
        rw [parseUIntStr_digits 255 t h1 h2, if_neg (by omega)]
      unfold Grade.tryFrom
      rw [ht]
      simp only [hnone]
  · intro hp
    unfold Grade.tryFrom
    rw [ht]
    simp only [hp]

/-- Claim C2 witness: the amended grade behavior evaluated at the numerals
3 and 256 and at non-numeric text. -/
theorem c2_grade_witness :
    Grade.tryFrom wGrade3 = .ok (.kyouiku 3) ∧
    Grade.tryFrom wGrade256 = .error .digit ∧
    Grade.tryFrom wGradeBad = .error .digit := by
  refine ⟨?_, ?_, ?_⟩
  · exact ((c2_grade_amended wGrade3 "3" rfl).1 (by decide) (by decide)).1
      (by decide)
  · exact ((c2_grade_amended wGrade256 "256" rfl).1 (by decide)
      (by decide)).2.2.2.2.2 (by decide)
  · exact (c2_grade_amended wGradeBad "x" rfl).2 rfl

/-! ## Helper lemmas about child lookup and child removal -/

lemma find?_filter_ne_tag (l : List Node) (t tp : String) (h : tp ≠ t) :
    (l.filter (fun c => c.tag != t)).find? (fun c => c.tag == tp) =
      l.find? (fun c => c.tag == tp) := by
  induction l with
  | nil => rfl
  | cons c cs ih =>
    by_cases hct : c.tag = t
    · have hf : (c.tag != t) = false := by simp [hct]
      have hp : (c.tag == tp) = false := by
        simp [hct]
        exact fun hh => h hh.symm
      simp only [List.filter_cons, hf, if_false, List.find?, hp, ih,
        Bool.false_eq_true, cond_false]
    · have hf : (c.tag != t) = true := by simp [hct]
      by_cases hcp : c.tag = tp
      · have hb : (c.tag == tp) = true := by simp [hcp]
        simp only [List.filter_cons, hf, if_true, List.find?, hb]
      · have hb : (c.tag == tp) = false := by simp [hcp]
        simp only [List.filter_cons, hf, if_true, List.find?, hb, ih]

lemma childE_removeChild_ne (n : Node) (t tp : String) (h : tp ≠ t) :
    childE (removeChild n t) tp = childE n tp := by
  unfold childE
  rw [show (removeChild n t).kids = n.kids.filter (fun c => c.tag != t)
    from rfl, find?_filter_ne_tag n.kids t tp h]
  rfl

lemma childE_removeChild_self (n : Node) (t : String) :
    childE (removeChild n t) t = .error (.missingChild t (posErrOf n)) := by
  unfold childE
  have hnone :
      (removeChild n t).kids.find? (fun c => c.tag == t) = Option.none := by
    apply List.find?_eq_none.mpr
    intro c hc
    have hmem := (List.mem_filter.mp hc).2
    simpa using hmem
  rw [hnone]
  rfl

lemma childE_error_shape {n : Node} {t : String} {e : SharedError}
    (h : childE n t = .error e) : e = .missingChild t (posErrOf n) := by
  unfold childE at h
  split at h
  · simp at h
  · injection h with h
    exact h.symm

lemma referencesPart_removeChild (n : Node) (t : String)
    (h : "dic_number" ≠ t) :
    referencesPart (removeChild n t) = referencesPart n := by
  unfold referencesPart
  rw [childE_removeChild_ne n t "dic_number" h]

lemma readingMeaningPart_removeChild (n : Node) (t : String)
    (h : "reading_meaning" ≠ t) :
    readingMeaningPart (removeChild n t) = readingMeaningPart n := by
  unfold readingMeaningPart
  rw [childE_removeChild_ne n t "reading_meaning" h]

lemma readingMeaningPart_removed (n : Node) :
    readingMeaningPart (removeChild n "reading_meaning") =
      .ok ([], [], Translations.default) := by
  unfold readingMeaningPart
  rw [childE_removeChild_self n "reading_meaning"]

lemma referencesPart_removed (n : Node) :
    referencesPart (removeChild n "dic_number") = .ok [] := by
  unfold referencesPart
  rw [childE_removeChild_self n "dic_number"]

/-! ## Inversion and construction of a successful record assembly -/

lemma fromNode_ok_inversion {n : Node} {r : Character}
    (h : Character.fromNode n = .ok r) :
    ∃ litNode litText cpNode radNode misc qcNode,
      childE n "literal" = .ok litNode ∧
      textE litNode = .ok litText ∧
      stringToChar litText = .ok r.literal ∧
      childE n "codepoint" = .ok cpNode ∧
      childrenE cpNode "cp_value" codepointFrom = .ok r.codepoints ∧
      childE n "radical" = .ok radNode ∧
      childrenE radNode "rad_value" radicalFrom = .ok r.radicals ∧
      childE n "misc" = .ok misc ∧
      coalesce (((childE misc "grade").toOption).map Grade.tryFrom) =
        .ok r.grade ∧
      strokeCountFrom misc = .ok r.strokeCounts ∧
      childrenE misc "variant" variantFrom = .ok r.variants ∧
      coalesce (((childE misc "freq").toOption).map (textUintE 65535)) =
        .ok r.frequency ∧
      childrenE misc "rad_name" textE = .ok r.radicalNames ∧
      coalesce (((childE misc "jlpt").toOption).map (textUintE 255)) =
        .ok r.jlpt ∧
      referencesPart n = .ok r.references ∧
      childE n "query_code" = .ok qcNode ∧
      childrenE qcNode "q_code" queryCodeFrom = .ok r.queryCodes ∧
      readingMeaningPart n = .ok (r.readings, r.nanori, r.translations) ∧
      r.decomposition = decompositionOf r.literal := by
  unfold Character.fromNode at h
  split at h
  next => simp at h
  next litNode h1 =>
  split at h
  next => simp at h
  next litText h2 =>
  split at h
  next => simp at h
  next lit h3 =>
  split at h
  next => simp at h
  next cpNode h4 =>
  split at h
  next => simp at h
  next cps h5 =>
  split at h
  next => simp at h
  next radNode h6 =>
  split at h
  next => simp at h
  next rads h7 =>
  split at h
  next => simp at h
  next misc h8 =>
  split at h
  next => simp at h
  next grd h9 =>
  split at h
  next => simp at h
  next sc h10 =>
  split at h
  next => simp at h
  next vars h11 =>
  split at h
  next => simp at h
  next freq h12 =>
  split at h
  next => simp at h
  next rnames h13 =>
  split at h
  next => simp at h
  next jl h14 =>
  split at h
  next => simp at h
  next refs h15 =>
  split at h
  next => simp at h
  next qcNode h16 =>
  split at h
  next => simp at h
  next qcs h17 =>
  split at h
  next => simp at h
  next rds nan trs h18 =>
  injection h with h
  subst h
  exact ⟨litNode, litText, cpNode, radNode, misc, qcNode,
    h1, h2, h3, h4, h5, h6, h7, h8, h9, h10, h11, h12, h13, h14,
    h15, h16, h17, h18, rfl⟩

lemma fromNode_construct {n litNode litText cpNode radNode misc qcNode}
    {lit : Char} {cps : List Codepoint} {rads : List Radical}
    {grd : Option Grade} {sc : StrokeCount} {vars : List Variant}
    {freq : Option Nat} {rnames : List String} {jl : Option Nat}
    {refs : List Reference} {qcs : List QueryCode} {rds : List Reading}
    {nan : List String} {trs : Translations}
    (h1 : childE n "literal" = .ok litNode)
    (h2 : textE litNode = .ok litText)
    (h3 : stringToChar litText = .ok lit)
    (h4 : childE n "codepoint" = .ok cpNode)
    (h5 : childrenE cpNode "cp_value" codepointFrom = .ok cps)
    (h6 : childE n "radical" = .ok radNode)
    (h7 : childrenE radNode "rad_value" radicalFrom = .ok rads)
    (h8 : childE n "misc" = .ok misc)
    (h9 : coalesce (((childE misc "grade").toOption).map Grade.tryFrom) =
      .ok grd)
    (h10 : strokeCountFrom misc = .ok sc)
    (h11 : childrenE misc "variant" variantFrom = .ok vars)
    (h12 : coalesce (((childE misc "freq").toOption).map (textUintE 65535)) =
      .ok freq)
    (h13 : childrenE misc "rad_name" textE = .ok rnames)
    (h14 : coalesce (((childE misc "jlpt").toOption).map (textUintE 255)) =
      .ok jl)
    (h15 : referencesPart n = .ok refs)
    (h16 : childE n "query_code" = .ok qcNode)
    (h17 : childrenE qcNode "q_code" queryCodeFrom = .ok qcs)
    (h18 : readingMeaningPart n = .ok (rds, nan, trs)) :
    Character.fromNode n = .ok
      { literal := lit, codepoints := cps, radicals := rads, grade := grd,
        strokeCounts := sc, variants := vars, frequency := freq,
        radicalNames := rnames, jlpt := jl, references := refs,
        queryCodes := qcs, nanori := nan, readings := rds,
        translations := trs, decomposition := decompositionOf lit } := by
  unfold Character.fromNode
  rw [h1]
  simp only [h2, h3, h4, h5, h6, h7, h8, h9, h10, h11, h12, h13, h14,
    h15, h16, h17, h18]

/-! ## Claim C3: the reading_meaning group is optional -/

/-- Claim C3: whenever the record assembly succeeds on a character node,
it still succeeds after the reading_meaning group is removed, and the
resulting record differs only in having empty readings, empty nanori and
empty translations; the absence of the group is never an error. -/
theorem c3_missing_reading_meaning (n : Node) (r : Character)
    (h : Character.fromNode n = .ok r) :
    Character.fromNode (removeChild n "reading_meaning") =
      .ok { r with readings := [], nanori := [],
                   translations := Translations.default } := by
  obtain ⟨litNode, litText, cpNode, radNode, misc, qcNode,
    h1, h2, h3, h4, h5, h6, h7, h8, h9, h10, h11, h12, h13, h14,
    h15, h16, h17, h18, hdec⟩ := fromNode_ok_inversion h
  have hc := fromNode_construct (n := removeChild n "reading_meaning")
    (by rw [childE_removeChild_ne n _ _ (by decide)]; exact h1)
    h2 h3
    (by rw [childE_removeChild_ne n _ _ (by decide)]; exact h4)
    h5
    (by rw [childE_removeChild_ne n _ _ (by decide)]; exact h6)
    h7
    (by rw [childE_removeChild_ne n _ _ (by decide)]; exact h8)
    h9 h10 h11 h12 h13 h14
    (by rw [referencesPart_removeChild n _ (by decide)]; exact h15)
    (by rw [childE_removeChild_ne n _ _ (by decide)]; exact h16)
    h17
    (readingMeaningPart_removed n)
  rw [hc, hdec]

/-- Claim C3 witness: the fixture character node decodes, and removing its
reading_meaning group leaves a record with the three fields emptied. -/
theorem c3_missing_reading_meaning_witness :
    Character.fromNode (removeChild wChar "reading_meaning") =
      .ok { wRecord with readings := [], nanori := [],
                         translations := Translations.default } :=
  c3_missing_reading_meaning wChar wRecord rfl

/-! ## Claim C4: dic_number is tolerated, codepoint is mandatory -/

/-- Claim C4: removing the dic_number group from a decodable character
node leaves a successful decode with an empty reference list, while a
character node without a codepoint child fails with a missing-structure
error positioned at the character node once its literal is readable, and
never returns a record. -/
theorem c4_group_policy :
    (∀ (n : Node) (r : Character), Character.fromNode n = .ok r →
      Character.fromNode (removeChild n "dic_number") =
        .ok { r with references := [] }) ∧
    (∀ (n litNode : Node) (t : String) (c : Char) (e : SharedError),
      childE n "literal" = .ok litNode → textE litNode = .ok t →
      stringToChar t = .ok c → childE n "codepoint" = .error e →
      Character.fromNode n =
        .error (.shared (.missingChild "codepoint" (posErrOf n))) ∧
      ∀ r, Character.fromNode n ≠ .ok r) := by
  constructor
  · intro n r h
    obtain ⟨litNode, litText, cpNode, radNode, misc, qcNode,
      h1, h2, h3, h4, h5, h6, h7, h8, h9, h10, h11, h12, h13, h14,
      h15, h16, h17, h18, hdec⟩ := fromNode_ok_inversion h
    have hc := fromNode_construct (n := removeChild n "dic_number")
      (by rw [childE_removeChild_ne n _ _ (by decide)]; exact h1)
      h2 h3
      (by rw [childE_removeChild_ne n _ _ (by decide)]; exact h4)
      h5
      (by rw [childE_removeChild_ne n _ _ (by decide)]; exact h6)
      h7
      (by rw [childE_removeChild_ne n _ _ (by decide)]; exact h8)
      h9 h10 h11 h12 h13 h14
      (referencesPart_removed n)
      (by rw [childE_removeChild_ne n _ _ (by decide)]; exact h16)
      h17
      (by rw [readingMeaningPart_removeChild n _ (by decide)]; exact h18)
    rw [hc, hdec]
  · intro n litNode t c e h1 h2 h3 hcp
    have he := childE_error_shape hcp
    subst he
    have herr : Character.fromNode n =
        .error (.shared (.missingChild "codepoint" (posErrOf n))) := by
      unfold Character.fromNode
      rw [h1]
      simp only [h2, h3, hcp]
    refine ⟨herr, ?_⟩
    intro r hok
    rw [herr] at hok
    simp at hok

/-- Claim C4 witness: the fixture node with its dic_number group removed
still decodes with empty references, and with its codepoint group removed
it fails with the missing-structure error at the character node. -/
theorem c4_group_policy_witness :
    Character.fromNode (removeChild wChar "dic_number") =
      .ok { wRecord with references := [] } ∧
    Character.fromNode (removeChild wChar "codepoint") =
      .error
        (.shared (.missingChild "codepoint" (posErrOf (removeChild wChar
          "codepoint")))) :=
  ⟨c4_group_policy.1 wChar wRecord rfl,
   (c4_group_policy.2 (removeChild wChar "codepoint") wLit "a" 'a'
      (.missingChild "codepoint" (posErrOf (removeChild wChar "codepoint")))
      rfl rfl rfl rfl).1⟩

/-! ## Claim C5: the position carried by a nanori text failure -/

lemma mapExcept_error {ε α : Type} (f : Node → Except ε α) :
    ∀ {l : List Node} {e : ε}, mapExcept f l = .error e →
      ∃ c ∈ l, f c = .error e := by
  intro l
  induction l with
  | nil =>
    intro e h
    simp [mapExcept] at h
  | cons a as ih =>
    intro e h
    unfold mapExcept at h
    cases hfa : f a with
    | error e2 =>
      simp only [hfa] at h
      injection h with hh
      exact ⟨a, by simp, by rw [hfa, hh]⟩
    | ok v =>
      simp only [hfa] at h
      cases hrec : mapExcept f as with
      | error e3 =>
        simp only [hrec] at h
        injection h with hh
        obtain ⟨c, hc, hfc⟩ := ih hrec
        exact ⟨c, by simp [hc], by rw [hfc, hh]⟩
      | ok vs =>
        simp only [hrec] at h
        simp at h

lemma mapExcept_const_error {ε α : Type} (f : Node → Except ε α) (E : ε)
    (hconst : ∀ c e, f c = .error e → e = E) :
    ∀ l : List Node, (∃ c ∈ l, f c = .error E) →
      mapExcept f l = .error E := by
  intro l
  induction l with
  | nil =>
    rintro ⟨c, hc, _⟩
    simp at hc
  | cons a as ih =>
    rintro ⟨c, hc, hfc⟩
    rcases List.mem_cons.mp hc with rfl | hmem
    · unfold mapExcept
      rw [hfc]
    · cases hfa : f a with
      | error e2 =>
        unfold mapExcept
        rw [hfa, hconst a e2 hfa]
      | ok v =>
        unfold mapExcept
        rw [hfa, ih ⟨c, hmem, hfc⟩]

lemma stringToChar_error_shape {s : String} {e : CharacterError}
    (h : stringToChar s = .error e) : e = .nonCharString := by
  unfold stringToChar at h
  split at h
  · injection h with hh
    exact hh.symm
  · simp at h
  · injection h with hh
    exact hh.symm

lemma nanoriOf_error_shape {rm : Node} {e : CharacterError}
    (h : nanoriOf rm = .error e) : e = .nanoriText (posErrOf rm) := by
  unfold nanoriOf childrenE at h
  obtain ⟨c, _, hfc⟩ := mapExcept_error _ h
  cases htd : textE c with
  | ok s =>
    simp only [htd] at hfc
    simp at hfc
  | error e2 =>
    simp only [htd] at hfc
    injection hfc with hh
    exact hh.symm

lemma referencesPart_not_nanori {n : Node} {p : PosError}
    (h : referencesPart n = .error (.nanoriText p)) : False := by
  unfold referencesPart at h
  split at h
  · split at h
    · simp at h
    · simp at h
  · simp at h
  · simp at h

lemma readingMeaningPart_nanori_error {n : Node} {p : PosError}
    (h : readingMeaningPart n = .error (.nanoriText p)) :
    ∃ rm, childE n "reading_meaning" = .ok rm ∧ p = posErrOf rm := by
  unfold readingMeaningPart at h
  split at h
  next rm heq =>
    split at h
    · simp at h
    next rmgroup h2 =>
    split at h
    · simp at h
    next rds h3 =>
    split at h
    · simp at h
    next trs h4 =>
    split at h
    next e5 h5 =>
      injection h with hh
      have hshape := nanoriOf_error_shape h5
      rw [hshape] at hh
      refine ⟨rm, heq, ?_⟩
      injection hh with hpos
      exact hpos.symm
    next nan h5 => simp at h
  next => simp at h

/-- Claim C5 counterexample: on a character node whose reading_meaning
group holds a text-less nanori child at position 11, the decode error
carries the position of the reading_meaning node (position 7), not the
position of the nanori node where the leaf failure occurred. -/
theorem c5_nanori_position_counterexample :
    Character.fromNode wCharBad =
      .error (.nanoriText ⟨"reading_meaning", 7⟩) ∧
    posErrOf wNanBad = ⟨"nanori", 11⟩ ∧
    (⟨"reading_meaning", 7⟩ : PosError) ≠ ⟨"nanori", 11⟩ := by
  exact ⟨rfl, rfl, by decide⟩

/-- Claim C5 as amended: a text-less nanori child makes the decode fail
with an error carrying the position of the enclosing reading_meaning node
(not of the nanori leaf), and that position is propagated unchanged: any
nanori error surfacing from the record assembler carries exactly the
position of the reading_meaning child of the character node. -/
theorem c5_nanori_position_amended :
    (∀ rm c, c ∈ rm.kids → c.tag = "nanori" → c.txt = Option.none →
      nanoriOf rm = .error (.nanoriText (posErrOf rm))) ∧
    (∀ (n : Node) (p : PosError),
      Character.fromNode n = .error (.nanoriText p) →
      ∃ rm, childE n "reading_meaning" = .ok rm ∧ p = posErrOf rm) := by
  constructor
  · intro rm c hmem htag htxt
    unfold nanoriOf childrenE
    apply mapExcept_const_error
    · intro d e hfd
      cases htd : textE d with
      | ok s =>
        simp only [htd] at hfd
        simp at hfd
      | error e2 =>
        simp only [htd] at hfd
        injection hfd with hh
        exact hh.symm
    · refine ⟨c, List.mem_filter.mpr ⟨hmem, by simp [htag]⟩, ?_⟩
      have htc : textE c = .error (.missingText (posErrOf c)) := by
        unfold textE
        rw [htxt]
      simp only [htc]
  · intro n p h
    unfold Character.fromNode at h
    split at h
    next => simp at h
    next litNode h1 =>
    split at h
    next => simp at h
    next litText h2 =>
    split at h
    next e3 he3 =>
      injection h with hh
      rw [stringToChar_error_shape he3] at hh
      simp at hh
    next lit h3 =>
    split at h
    next => simp at h
    next cpNode h4 =>
    split at h
    next => simp at h
    next cps h5 =>
    split at h
    next => simp at h
    next radNode h6 =>
    split at h
    next => simp at h
    next rads h7 =>
    split at h
    next => simp at h
    next misc h8 =>
    split at h
    next => simp at h
    next grd h9 =>
    split at h
    next => simp at h
    next sc h10 =>
    split at h
    next => simp at h
    next vars h11 =>
    split at h
    next => simp at h
    next freq h12 =>
    split at h
    next => simp at h
    next rnames h13 =>
    split at h
    next => simp at h
    next jl h14 =>
    split at h
    next e15 he15 =>
      injection h with hh
      rw [hh] at he15
      exact absurd he15 (fun hc => referencesPart_not_nanori hc)
    next refs h15 =>
    split at h
    next => simp at h
    next qcNode h16 =>
    split at h
    next => simp at h
    next qcs h17 =>
    split at h
    next e18 he18 =>
      injection h with hh
      rw [hh] at he18
      exact readingMeaningPart_nanori_error he18
    next rds nan trs h18 => simp at h

/-- Claim C5 witness: the amended positional behavior evaluated on the
fixture reading_meaning group with a text-less nanori child. -/
theorem c5_nanori_position_witness :
    wNanBad ∈ wRmBad.kids ∧
    nanoriOf wRmBad = .error (.nanoriText (posErrOf wRmBad)) := by
  have hm : wNanBad ∈ wRmBad.kids := by
    simp [wRmBad, Node.kids]
  exact ⟨hm, c5_nanori_position_amended.1 wRmBad wNanBad hm rfl rfl⟩

/-! ## Claim C7: the literal is exactly one character -/

/-- Claim C7: the literal conversion succeeds exactly on one-character
strings, the decoded character is that single character, and a successful
record assembly stores exactly the character converted from the literal
child text. -/
theorem c7_literal_single_char :
    (∀ (s : String) (c : Char), stringToChar s = .ok c ↔ s.data = [c]) ∧
    (∀ s : String, (∃ c, stringToChar s = .ok c) ↔ s.data.length = 1) ∧
    (∀ (n : Node) (r : Character), Character.fromNode n = .ok r →
      ∃ litNode t, childE n "literal" = .ok litNode ∧
        textE litNode = .ok t ∧ stringToChar t = .ok r.literal) := by
  refine ⟨?_, ?_, ?_⟩
  · intro s c
    obtain ⟨l⟩ := s
    match l with
    | [] => simp [stringToChar]
    | [a] => simp [stringToChar]
    | a :: b :: rest => simp [stringToChar]
  · intro s
    obtain ⟨l⟩ := s
    match l with
    | [] => simp [stringToChar]
    | [a] => exact ⟨fun _ => rfl, fun _ => ⟨a, rfl⟩⟩
    | a :: b :: rest => simp [stringToChar]
  · intro n r h
    obtain ⟨litNode, litText, _, _, _, _, h1, h2, h3, _⟩ :=
      fromNode_ok_inversion h
    exact ⟨litNode, litText, h1, h2, h3⟩

/-- Claim C7 witness: the single-character criterion evaluated on the
string a and on the fixture character node. -/
theorem c7_literal_single_char_witness :
    stringToChar "a" = .ok 'a' ∧
    (∃ litNode t, childE wChar "literal" = .ok litNode ∧
      textE litNode = .ok t ∧ stringToChar t = .ok wRecord.literal) :=
  ⟨(c7_literal_single_char.1 "a" 'a').mpr rfl,
   c7_literal_single_char.2.2 wChar wRecord rfl⟩

/-! ## Claim C8: decoding is deterministic -/

/-- Claim C8: record decoding is a pure function of the input node; two
runs on the same node yield equal results, record or error alike. -/
theorem c8_deterministic (n : Node)
    (r1 r2 : Except CharacterError Character)
    (h1 : Character.fromNode n = r1) (h2 : Character.fromNode n = r2) :
    r1 = r2 := by
  rw [← h1, ← h2]

/-- Claim C8 witness: determinism evaluated on the fixture character
node. -/
theorem c8_deterministic_witness :
    (Except.ok wRecord : Except CharacterError Character) =
      Character.fromNode wChar :=
  c8_deterministic wChar (.ok wRecord) (Character.fromNode wChar) rfl rfl

/-! ## Claim C9: reading dispatch is exhaustive over a closed vocabulary -/

/-- Claim C9: the r_type attribute is dispatched over exactly the closed
vocabulary of the six reading schemes; a value outside it always yields
the unrecognized-variant error positioned at the node, and a value inside
it never does. -/
theorem c9_reading_dispatch (n : Node) (v : String)
    (hv : attrE n "r_type" = .ok v) :
    (v ∉ (["pinyin", "korean_r", "korean_h", "vietnam", "ja_on",
        "ja_kun"] : List String) ↔
      Reading.fromNode n = .error (.unrecognizedType (posErrOf n))) := by
  constructor
  · intro hnot
    simp only [List.mem_cons, List.not_mem_nil, or_false, not_or] at hnot
    obtain ⟨n1, n2, n3, n4, n5, n6⟩ := hnot
    simp only [Reading.fromNode, hv]
    rw [if_neg n1, if_neg n2, if_neg n3, if_neg n4, if_neg n5, if_neg n6]
  · intro heq
    by_contra hmem
    simp only [List.mem_cons, List.not_mem_nil, or_false] at hmem
    rcases hmem with rfl | rfl | rfl | rfl | rfl | rfl
    all_goals simp only [Reading.fromNode, hv, if_true] at heq
    · cases hp : pinYinFrom n <;> simp only [hp] at heq <;> simp at heq
    · cases hp : textE n <;> simp only [hp] at heq <;> simp at heq
    · cases hp : textE n <;> simp only [hp] at heq <;> simp at heq
    · cases hp : textE n <;> simp only [hp] at heq <;> simp at heq
    · cases hp : textE n <;> simp only [hp] at heq <;> simp at heq
    · cases hp : kunyomiFrom n <;> simp only [hp] at heq <;> simp at heq

/-- Claim C9 witness: the dispatch evaluated on a reading node whose
r_type value lies outside the closed vocabulary. -/
theorem c9_reading_dispatch_witness :
    Reading.fromNode wReadingBogus =
      .error (.unrecognizedType (posErrOf wReadingBogus)) :=
  (c9_reading_dispatch wReadingBogus "bogus" rfl).mp (by decide)

end Kanjidic
